import Mathlib

/-!
Shallow embedding of the jscriptlogger client (src/Client.ts and
src/LoggerNetwork.ts) and proofs about its connection/session/retry engine.

Modelling conventions:
- Clock: DateTime.now() is passed explicitly as a `now : Nat` (milliseconds);
  all clock reads inside one synchronous handler see the same value.
- Randomness: getRandomValues is modelled as a stream `rng : Nat -> Nat`
  together with a draw counter `draws`; `randomLong` reads `rng draws` and
  advances the counter.
- The pending Map<string, IPending> is an insertion-ordered association list
  with JS Map semantics (set replaces in place, iteration in insertion order).
- The resolver closure of each pending entry is represented by a unique
  `resolverId` (the draw counter at creation); invoking the resolver is
  recorded by appending a `Resolution` to the `resolutions` trace.
- Transport writes (WebSocket.send) are recorded in the `sends` trace;
  logger.error calls are recorded in the `reports` trace.
-/

namespace JscriptLoggerClient

/-- WebSocket readyState constants (`IWebSocketConstructor` in src/Client.ts). -/
inductive ReadyState
  | CONNECTING
  | OPEN
  | CLOSING
  | CLOSED
deriving DecidableEq

/-- One send-attempt record (`IPendingSentInformation` in src/Client.ts):
date and expiry in milliseconds. -/
structure IPendingSentInformation where
  date : Nat
  expiresAt : Nat
deriving DecidableEq

/-- Embeds `isPendingSentInformationExpired` from src/Client.ts; the clock
read DateTime.now() is the explicit `now` argument. -/
def isPendingSentInformationExpired (now : Nat) (input : IPendingSentInformation) : Bool :=
  decide (now ≥ input.expiresAt)

/-- One pending request (`IPending` in src/Client.ts). The `resolve` closure
is represented by the bookkeeping field `resolverId`, unique per creation. -/
structure IPending where
  requestId : Nat
  acknowledged : Bool
  request : Nat
  maxRetryCount : Nat
  retries : List IPendingSentInformation
  sent : Option IPendingSentInformation
  resolverId : Nat
deriving DecidableEq

/-- Outcome delivered to a resolver: the peer's Result or Error payload
(payloads are opaque to the engine, modelled as Nat). -/
inductive Outcome
  | success (result : Nat)
  | error (err : Nat)
deriving DecidableEq

/-- Record of one resolver invocation (`pending.resolve(...)` in onMessage). -/
structure Resolution where
  resolverId : Nat
  requestId : String
  outcome : Outcome
deriving DecidableEq

/-- One outbound wire frame (the `messageRequest` encoded and passed to
WebSocket.send), with the time of the write. -/
structure Frame where
  requestId : String
  sessionId : String
  request : Nat
  sentAt : Nat
deriving DecidableEq

/-- One logger.error call site in src/Client.ts. -/
inductive Report
  | errorEvent
  | closeEvent
  | ackUnknown (id : String)
  | ackDuplicate (id : String)
  | protocolError
  | resultUnknown (id : String)
  | unrecognized
deriving DecidableEq

/-- Decoded inbound frame (the tagged union switched on in onMessage). -/
inductive ServerMessage
  | acknowledge (messageId : String)
  | protocolError
  | resultSuccess (requestId : String) (result : Nat)
  | resultError (requestId : String) (err : Nat)
  | unrecognized
deriving DecidableEq

/-- State of one `Client` instance plus the observable traces. -/
structure ClientState where
  pending : List (String × IPending)
  session : Option Nat
  connection : Option ReadyState
  rng : Nat → Nat
  draws : Nat
  sends : List Frame
  resolutions : List Resolution
  reports : List Report

/-- Map.get on the pending registry. -/
def mapGet (k : String) : List (String × IPending) → Option IPending
  | [] => none
  | kv :: rest => if kv.1 = k then some kv.2 else mapGet k rest

/-- Map.set on the pending registry: replace in place, else append. -/
def mapSet (k : String) (v : IPending) : List (String × IPending) → List (String × IPending)
  | [] => [(k, v)]
  | kv :: rest => if kv.1 = k then (k, v) :: rest else kv :: mapSet k v rest

/-- In-place mutation of the entry stored under key k (the JS code mutates
the shared IPending object). -/
def modifyEntry (k : String) (f : IPending → IPending)
    (m : List (String × IPending)) : List (String × IPending) :=
  m.map fun kv => if kv.1 = k then (kv.1, f kv.2) else kv

/-- Map.delete on the pending registry. -/
def eraseKey (k : String) (m : List (String × IPending)) : List (String × IPending) :=
  m.filter fun kv => decide (kv.1 ≠ k)

/-- Embeds `#randomLong`: draw the next value of the random stream. -/
def randomLong (s : ClientState) : Nat × ClientState :=
  (s.rng s.draws, { s with draws := s.draws + 1 })

/-- Embeds `#isConnected`: a transport exists and reports readyState OPEN. -/
def isConnected (s : ClientState) : Bool :=
  decide (s.connection = some ReadyState.OPEN)

/-- Embeds `#connect`: no-op when a transport instance already exists,
otherwise construct one (a fresh WebSocket starts CONNECTING). -/
def connect (s : ClientState) : ClientState :=
  match s.connection with
  | some _ => s
  | none => { s with connection := some ReadyState.CONNECTING }

/-- Embeds `#send`: write to the transport only when it reports OPEN,
returning whether the write happened. -/
def send (value : Frame) (s : ClientState) : Bool × ClientState :=
  if s.connection = some ReadyState.OPEN then
    (true, { s with sends := s.sends ++ [value] })
  else
    (false, s)

/-- The fixed 10-second retry window (`expirationDifference` in
`#sendMessageRequest`), in milliseconds. -/
def expirationDifferenceMs : Nat := 10000

/-- The session-creation step of `#sendMessageRequest`: if no session
exists, draw a fresh id and store it. -/
def ensureSession (s : ClientState) : ClientState :=
  match s.session with
  | some _ => s
  | none => { s with session := some (s.rng s.draws), draws := s.draws + 1 }

/-- The session id read right after `ensureSession` (this.#session.id). -/
def sessionIdAfter (s : ClientState) : Nat :=
  match s.session with
  | some id => id
  | none => s.rng s.draws

/-- Mutation performed on a successful retry write: append a retry record. -/
def pushRetry (now : Nat) (p : IPending) : IPending :=
  { p with retries :=
      p.retries ++ [{ date := now, expiresAt := now + expirationDifferenceMs }] }

/-- Mutation performed on a successful initial write: set the sent record. -/
def setSent (now : Nat) (p : IPending) : IPending :=
  { p with sent := some { date := now, expiresAt := now + expirationDifferenceMs } }

/-- Embeds `#sendMessageRequest` (the Retry/Send Engine drive pass for one
pending entry). The pending object argument of the source is looked up by
its registry key; in every caller the entry is present in the registry. -/
def sendMessageRequest (now : Nat) (key : String) (s : ClientState) : ClientState :=
  if isConnected s = false then connect s
  else
    match mapGet key s.pending with
    | none => s
    | some pending =>
      let s1 := ensureSession s
      let sid := sessionIdAfter s
      let isExpired : Bool :=
        match pending.sent with
        | some si => decide (now ≥ si.expiresAt)
        | none => false
      let encoded : Frame :=
        { requestId := key, sessionId := toString sid
          request := pending.request, sentAt := now }
      if isExpired then
        let blocked : Bool :=
          match pending.retries.getLast? with
          | some lastRetry => !(isPendingSentInformationExpired now lastRetry)
          | none => false
        if blocked then s1
        else
          let r := send encoded s1
          if r.1 then
            { r.2 with pending := modifyEntry key (pushRetry now) r.2.pending }
          else r.2
      else if pending.sent.isSome then s1
      else
        let r := send encoded s1
        if r.1 then
          { r.2 with pending := modifyEntry key (setSent now) r.2.pending }
        else r.2

/-- Embeds `#checkPendingRequests`: drive every pending entry, in
registry iteration (insertion) order. -/
def checkPendingRequests (now : Nat) (s : ClientState) : ClientState :=
  (s.pending.map Prod.fst).foldl (fun acc k => sendMessageRequest now k acc) s

/-- Embeds the public `sendMessage`: create the pending entry, register it
under the decimal-string form of its id, and drive it once. -/
def sendMessage (now : Nat) (request : Nat) (maxRetryCount : Nat)
    (s : ClientState) : ClientState :=
  let requestId := s.rng s.draws
  let pending : IPending :=
    { requestId := requestId, request := request, maxRetryCount := maxRetryCount
      retries := [], sent := none, acknowledged := false, resolverId := s.draws }
  let s1 : ClientState :=
    { s with draws := s.draws + 1
             pending := mapSet (toString requestId) pending s.pending }
  sendMessageRequest now (toString requestId) s1

/-- Embeds the `onError` handler: report only. -/
def onError (s : ClientState) : ClientState :=
  { s with reports := s.reports ++ [Report.errorEvent] }

/-- Embeds the `onOpen` handler: re-drive every pending entry. -/
def onOpen (now : Nat) (s : ClientState) : ClientState :=
  checkPendingRequests now s

/-- Embeds the `onClose` handler: drop the transport instance, report,
and immediately reconnect. Note the source does not touch `#session`. -/
def onClose (s : ClientState) : ClientState :=
  connect { s with connection := none, reports := s.reports ++ [Report.closeEvent] }

/-- Embeds the `onMessage` handler after a successful decode (the switch on
the decoded tagged union). -/
def onMessage (result : ServerMessage) (s : ClientState) : ClientState :=
  match result with
  | ServerMessage.acknowledge messageId =>
    match mapGet messageId s.pending with
    | none => { s with reports := s.reports ++ [Report.ackUnknown messageId] }
    | some pending =>
      if pending.acknowledged then
        { s with reports := s.reports ++ [Report.ackDuplicate messageId] }
      else
        { s with pending :=
            modifyEntry messageId (fun p => { p with acknowledged := true }) s.pending }
  | ServerMessage.protocolError =>
    { s with reports := s.reports ++ [Report.protocolError] }
  | ServerMessage.resultSuccess requestId result =>
    match mapGet requestId s.pending with
    | none => { s with reports := s.reports ++ [Report.resultUnknown requestId] }
    | some pending =>
      { s with pending := eraseKey requestId s.pending
               resolutions := s.resolutions ++
                 [{ resolverId := pending.resolverId, requestId := requestId
                    outcome := Outcome.success result }] }
  | ServerMessage.resultError requestId err =>
    match mapGet requestId s.pending with
    | none => { s with reports := s.reports ++ [Report.resultUnknown requestId] }
    | some pending =>
      { s with pending := eraseKey requestId s.pending
               resolutions := s.resolutions ++
                 [{ resolverId := pending.resolverId, requestId := requestId
                    outcome := Outcome.error err }] }
  | ServerMessage.unrecognized =>
    { s with reports := s.reports ++ [Report.unrecognized] }

/-- Events driving one client instance: the public API call and the four
subscribed transport events. -/
inductive Event
  | sendMessage (request : Nat) (maxRetryCount : Nat)
  | transportOpen
  | transportClose
  | transportError
  | transportMessage (m : ServerMessage)
deriving DecidableEq

/-- One event step at time `t`. A transport open or close event can only be
delivered while a transport instance exists; the open event flips the
transport's readyState to OPEN before the handler runs. -/
def step (t : Nat) (e : Event) (s : ClientState) : ClientState :=
  match e with
  | Event.sendMessage request maxRetryCount => sendMessage t request maxRetryCount s
  | Event.transportOpen =>
    match s.connection with
    | some _ => onOpen t { s with connection := some ReadyState.OPEN }
    | none => s
  | Event.transportClose =>
    match s.connection with
    | some _ => onClose s
    | none => s
  | Event.transportError => onError s
  | Event.transportMessage m => onMessage m s

/-- Run a timed event trace from a state. -/
def run : ClientState → List (Nat × Event) → ClientState
  | s, [] => s
  | s, te :: rest => run (step te.1 te.2 s) rest

/-- The constructor state of a `Client` instance. -/
def initState (rng : Nat → Nat) : ClientState :=
  { pending := [], session := none, connection := none, rng := rng, draws := 0
    sends := [], resolutions := [], reports := [] }

/-- Spec-side transcription of the drive-pass write condition (claim C4 and
spec section 4.4): a write happens when the request was never sent, or when
the initial send has expired and the most recent retry record, if any, has
also expired. Compared against `sendMessageRequest` by theorem. -/
def due (now : Nat) (p : IPending) : Bool :=
  match p.sent with
  | none => true
  | some si =>
    decide (now ≥ si.expiresAt) &&
      (match p.retries.getLast? with
       | none => true
       | some lastRetry => decide (now ≥ lastRetry.expiresAt))

/-- Resolver ids of the entries of a pending registry. -/
def resolverIdsOf (m : List (String × IPending)) : List Nat :=
  m.map fun kv => kv.2.resolverId

/-- Number of transport writes carrying a given request id. -/
def countFramesFor (k : String) (l : List Frame) : Nat :=
  (l.filter fun f => decide (f.requestId = k)).length

/-- Maps a pending entry to its maxRetryCount-erased form (for the
maxRetryCount-independence hyperproperty). -/
def erasePendingMrc (p : IPending) : IPending :=
  { p with maxRetryCount := 0 }

/-- Erases every stored maxRetryCount from a client state. -/
def eraseMrc (s : ClientState) : ClientState :=
  { s with pending := s.pending.map fun kv => (kv.1, erasePendingMrc kv.2) }

/-- Erases the maxRetryCount argument carried by a sendMessage event. -/
def stripMrc : Event → Event
  | Event.sendMessage request _ => Event.sendMessage request 0
  | e => e

/-- Erases the maxRetryCount arguments of a whole timed trace. -/
def stripMrcTrace (tr : List (Nat × Event)) : List (Nat × Event) :=
  tr.map fun te => (te.1, stripMrc te.2)

/-- Invariant core for single resolution, over the pending registry, the
resolution trace and the draw counter. -/
def InvCore (pend : List (String × IPending)) (res : List Resolution)
    (draws : Nat) : Prop :=
  (∀ kv ∈ pend, kv.2.resolverId < draws) ∧
  (∀ r ∈ res, r.resolverId < draws) ∧
  (resolverIdsOf pend).Nodup ∧
  (res.map Resolution.resolverId).Nodup ∧
  (∀ r ∈ res, ∀ kv ∈ pend, kv.2.resolverId ≠ r.resolverId)

/-- Invariant of a client state for single resolution. -/
def Inv (s : ClientState) : Prop :=
  InvCore s.pending s.resolutions s.draws

/-- LineType of the logging schema (lineTypeLog / lineTypeError in
src/LoggerNetwork.ts). -/
inductive LineType
  | lineTypeLog
  | lineTypeError
deriving DecidableEq

/-- Opaque encoding of the AddPageLine request payload. -/
def AddPageLine (pageId : Nat) (lineType : LineType) (line : Nat) : Nat :=
  Nat.pair pageId (Nat.pair line
    (match lineType with
     | LineType.lineTypeLog => 0
     | LineType.lineTypeError => 1))

/-- State of a LoggerNetwork facade: the wrapped client, the local
(console) log produced via the parent logger, and a count of the
client.sendMessage calls it made. -/
structure LoggerNetworkState where
  client : ClientState
  localLog : List String
  sendMessageCalls : Nat

/-- The local error message of LoggerNetwork.store when no page id exists. -/
def noPageIdMessage : String := "no page id available, failed to proceed"

/-- Embeds one queued task of LoggerNetwork.store: await the page id; when
it is null, log locally and stop (a local no-op); otherwise send an
AddPageLine request through the client. The later await of the request's
outcome only logs and is outside this model. -/
def store (now : Nat) (pageId : Option Nat) (lineType : LineType) (args : Nat)
    (st : LoggerNetworkState) : LoggerNetworkState :=
  match pageId with
  | none => { st with localLog := st.localLog ++ [noPageIdMessage] }
  | some pid =>
    { st with client := sendMessage now (AddPageLine pid lineType args) 4 st.client
              sendMessageCalls := st.sendMessageCalls + 1 }

/-- Embeds the promise chain of LoggerNetwork: queued lines are processed
strictly in order, one after the other. -/
def storeAll (now : Nat) (pageId : Option Nat) (lines : List (LineType × Nat))
    (st : LoggerNetworkState) : LoggerNetworkState :=
  lines.foldl (fun acc l => store now pageId l.1 l.2 acc) st

/-- Trace exhibiting the session id surviving a reconnection: one request is
created while disconnected, sent on open, the connection closes, and the
request is re-sent on a much later open (after its retry window expired). -/
def traceSessionReuse : List (Nat × Event) :=
  [(0, Event.sendMessage 7 4), (10, Event.transportOpen),
   (20, Event.transportClose), (20000, Event.transportOpen)]

/-- Trace exhibiting a reconnection inside the pending request's unexpired
send window: the close fires at 2ms and the next open at 3ms, long before
the 10-second expiry of the frame written at 1ms. -/
def traceFastReconnect : List (Nat × Event) :=
  [(0, Event.sendMessage 7 4), (1, Event.transportOpen),
   (2, Event.transportClose), (3, Event.transportOpen)]

/-- Example state with an existing session and no transport. -/
def exSessionState : ClientState :=
  { pending := [], session := some 5, connection := none, rng := fun n => n
    draws := 6, sends := [], resolutions := [], reports := [] }

/-- Example pending entry whose initial send is still unexpired at 5000 ms
and expired at 10000 ms. -/
def exPendingSentAtZero : IPending :=
  { requestId := 7, acknowledged := false, request := 42, maxRetryCount := 4
    retries := [], sent := some { date := 0, expiresAt := 10000 }, resolverId := 0 }

/-- Example connected state holding `exPendingSentAtZero` under key "7". -/
def exConnectedState : ClientState :=
  { pending := [("7", exPendingSentAtZero)], session := some 3
    connection := some ReadyState.OPEN, rng := fun n => n, draws := 5
    sends := [], resolutions := [], reports := [] }

/-- Example pending entry that was never sent. -/
def exPendingUnsent : IPending :=
  { requestId := 0, acknowledged := false, request := 7, maxRetryCount := 4
    retries := [], sent := none, resolverId := 0 }

/-- Example state holding the never-sent `exPendingUnsent` under key "0",
with a transport that exists but is still mid-handshake. -/
def exConnectingState : ClientState :=
  { pending := [("0", exPendingUnsent)], session := some 1
    connection := some ReadyState.CONNECTING, rng := fun n => n, draws := 2
    sends := [], resolutions := [], reports := [] }

/-- Example pending entry that is already acknowledged. -/
def exPendingAcked : IPending :=
  { requestId := 1, acknowledged := true, request := 9, maxRetryCount := 4
    retries := [], sent := some { date := 0, expiresAt := 10000 }, resolverId := 0 }

/-- Example state holding the acknowledged `exPendingAcked` under key "1". -/
def exAckedState : ClientState :=
  { pending := [("1", exPendingAcked)], session := some 2
    connection := some ReadyState.OPEN, rng := fun n => n, draws := 3
    sends := [], resolutions := [], reports := [] }

/-- Two timed traces equal up to the maxRetryCount option of the single
sendMessage call (4 versus 999). -/
def traceMrcFour : List (Nat × Event) :=
  [(0, Event.sendMessage 7 4), (1, Event.transportOpen),
   (20000, Event.transportMessage (ServerMessage.acknowledge "0"))]

/-- Companion trace of `traceMrcFour` with maxRetryCount 999. -/
def traceMrcLarge : List (Nat × Event) :=
  [(0, Event.sendMessage 7 999), (1, Event.transportOpen),
   (20000, Event.transportMessage (ServerMessage.acknowledge "0"))]

theorem isConnected_eq_true_iff (s : ClientState) :
    isConnected s = true ↔ s.connection = some ReadyState.OPEN := by
  simp [isConnected]

theorem isConnected_not_false (s : ClientState) (h : ¬ isConnected s = false) :
    s.connection = some ReadyState.OPEN := by
  rw [← isConnected_eq_true_iff]
  cases hI : isConnected s with
  | false => exact absurd hI h
  | true => rfl

theorem connect_pending (s : ClientState) : (connect s).pending = s.pending := by
  unfold connect; cases s.connection <;> rfl

theorem connect_session (s : ClientState) : (connect s).session = s.session := by
  unfold connect; cases s.connection <;> rfl

theorem connect_sends (s : ClientState) : (connect s).sends = s.sends := by
  unfold connect; cases s.connection <;> rfl

theorem connect_resolutions (s : ClientState) : (connect s).resolutions = s.resolutions := by
  unfold connect; cases s.connection <;> rfl

theorem connect_reports (s : ClientState) : (connect s).reports = s.reports := by
  unfold connect; cases s.connection <;> rfl

theorem connect_draws (s : ClientState) : (connect s).draws = s.draws := by
  unfold connect; cases s.connection <;> rfl

theorem connect_rng (s : ClientState) : (connect s).rng = s.rng := by
  unfold connect; cases s.connection <;> rfl

theorem ensureSession_pending (s : ClientState) :
    (ensureSession s).pending = s.pending := by
  unfold ensureSession; cases s.session <;> rfl

theorem ensureSession_connection (s : ClientState) :
    (ensureSession s).connection = s.connection := by
  unfold ensureSession; cases s.session <;> rfl

theorem ensureSession_sends (s : ClientState) :
    (ensureSession s).sends = s.sends := by
  unfold ensureSession; cases s.session <;> rfl

theorem ensureSession_resolutions (s : ClientState) :
    (ensureSession s).resolutions = s.resolutions := by
  unfold ensureSession; cases s.session <;> rfl

theorem ensureSession_reports (s : ClientState) :
    (ensureSession s).reports = s.reports := by
  unfold ensureSession; cases s.session <;> rfl

theorem ensureSession_rng (s : ClientState) :
    (ensureSession s).rng = s.rng := by
  unfold ensureSession; cases s.session <;> rfl

theorem ensureSession_draws_le (s : ClientState) :
    s.draws ≤ (ensureSession s).draws := by
  unfold ensureSession; cases s.session <;> simp

theorem ensureSession_of_some (s : ClientState) (id : Nat) (h : s.session = some id) :
    ensureSession s = s := by
  unfold ensureSession; rw [h]

theorem ensureSession_session_persists (s : ClientState) (id : Nat)
    (h : s.session = some id) : (ensureSession s).session = some id := by
  rw [ensureSession_of_some s id h, h]

theorem send_of_open (v : Frame) (s : ClientState)
    (h : s.connection = some ReadyState.OPEN) :
    send v s = (true, { s with sends := s.sends ++ [v] }) := by
  unfold send; rw [if_pos h]

theorem mapGet_some_mem (k : String) (m : List (String × IPending)) (p : IPending)
    (h : mapGet k m = some p) : (k, p) ∈ m := by
  induction m with
  | nil => simp [mapGet] at h
  | cons kv rest ih =>
    unfold mapGet at h
    by_cases hk : kv.1 = k
    · rw [if_pos hk] at h
      have hkv : kv = (k, p) := by
        cases kv with
        | mk a b =>
          simp only at hk
          simp only [Option.some.injEq] at h
          rw [hk, h]
      rw [hkv]
      exact List.mem_cons_self _ _
    · rw [if_neg hk] at h
      right
      exact ih h

theorem mapGet_modifyEntry_other (k kOther : String) (f : IPending → IPending)
    (m : List (String × IPending)) (h : kOther ≠ k) :
    mapGet kOther (modifyEntry k f m) = mapGet kOther m := by
  induction m with
  | nil => rfl
  | cons kv rest ih =>
    unfold modifyEntry at *
    by_cases hk : kv.1 = k
    · have hne : kv.1 ≠ kOther := by rw [hk]; exact fun hc => h hc.symm
      simp only [List.map_cons, if_pos hk, mapGet, hne, if_false, if_neg hne]
      exact ih
    · simp only [List.map_cons, if_neg hk, mapGet]
      by_cases h2 : kv.1 = kOther
      · rw [if_pos h2, if_pos h2]
      · rw [if_neg h2, if_neg h2]
        exact ih

theorem modifyEntry_keys (k : String) (f : IPending → IPending)
    (m : List (String × IPending)) :
    (modifyEntry k f m).map Prod.fst = m.map Prod.fst := by
  induction m with
  | nil => rfl
  | cons kv rest ih =>
    unfold modifyEntry at *
    by_cases hk : kv.1 = k
    · simp only [List.map_cons, if_pos hk, ih]
    · simp only [List.map_cons, if_neg hk, ih]

theorem modifyEntry_resolverIds (k : String) (f : IPending → IPending)
    (m : List (String × IPending)) (hf : ∀ p, (f p).resolverId = p.resolverId) :
    resolverIdsOf (modifyEntry k f m) = resolverIdsOf m := by
  induction m with
  | nil => rfl
  | cons kv rest ih =>
    unfold modifyEntry resolverIdsOf at *
    by_cases hk : kv.1 = k
    · simp only [List.map_cons, if_pos hk, ih, hf]
    · simp only [List.map_cons, if_neg hk, ih]

theorem mapSet_mem (k : String) (v : IPending) (m : List (String × IPending))
    (kv : String × IPending) (h : kv ∈ mapSet k v m) : kv = (k, v) ∨ kv ∈ m := by
  induction m with
  | nil =>
    simp [mapSet] at h
    left; exact h
  | cons hd rest ih =>
    unfold mapSet at h
    by_cases hk : hd.1 = k
    · rw [if_pos hk] at h
      rcases List.mem_cons.mp h with h1 | h2
      · left; exact h1
      · right; exact List.mem_cons_of_mem hd h2
    · rw [if_neg hk] at h
      rcases List.mem_cons.mp h with h1 | h2
      · right; rw [h1]; exact List.mem_cons_self hd rest
      · rcases ih h2 with h3 | h4
        · left; exact h3
        · right; exact List.mem_cons_of_mem hd h4

theorem mapSet_keys_subset (k : String) (v : IPending) (m : List (String × IPending))
    (kNew : String) (h : kNew ∈ (mapSet k v m).map Prod.fst) :
    kNew = k ∨ kNew ∈ m.map Prod.fst := by
  rcases List.mem_map.mp h with ⟨kv, hkv, hfst⟩
  rcases mapSet_mem k v m kv hkv with h1 | h2
  · left; rw [← hfst, h1]
  · right; exact List.mem_map.mpr ⟨kv, h2, hfst⟩

theorem mapSet_rids_nodup (k : String) (v : IPending) (m : List (String × IPending))
    (hv : v.resolverId ∉ resolverIdsOf m) (hm : (resolverIdsOf m).Nodup) :
    (resolverIdsOf (mapSet k v m)).Nodup := by
  induction m with
  | nil => simp [mapSet, resolverIdsOf]
  | cons hd rest ih =>
    simp only [resolverIdsOf, List.map_cons, List.nodup_cons] at hm
    simp only [resolverIdsOf, List.map_cons, List.mem_cons, not_or] at hv
    unfold mapSet
    by_cases hk : hd.1 = k
    · rw [if_pos hk]
      simp only [resolverIdsOf, List.map_cons, List.nodup_cons]
      exact ⟨fun hc => hv.2 hc, hm.2⟩
    · rw [if_neg hk]
      simp only [resolverIdsOf, List.map_cons, List.nodup_cons]
      constructor
      · intro hc
        rcases List.mem_map.mp hc with ⟨kv, hkv, hrid⟩
        rcases mapSet_mem k v rest kv hkv with h1 | h2
        · apply hv.1
          rw [← hrid, h1]
        · exact hm.1 (by rw [← hrid]; exact List.mem_map.mpr ⟨kv, h2, rfl⟩)
      · exact ih hv.2 hm.2

theorem eraseKey_mem (k : String) (m : List (String × IPending))
    (kv : String × IPending) (h : kv ∈ eraseKey k m) : kv ∈ m ∧ kv.1 ≠ k := by
  unfold eraseKey at h
  have h2 := List.mem_filter.mp h
  refine ⟨h2.1, ?_⟩
  have := h2.2
  simpa using this

theorem eraseKey_rids_sublist (k : String) (m : List (String × IPending)) :
    (resolverIdsOf (eraseKey k m)).Sublist (resolverIdsOf m) := by
  unfold eraseKey resolverIdsOf
  exact (List.filter_sublist m).map _

theorem sendMessageRequest_not_connected (now : Nat) (key : String) (s : ClientState)
    (h : isConnected s = false) : sendMessageRequest now key s = connect s := by
  unfold sendMessageRequest
  rw [if_pos h]

theorem sendMessageRequest_no_entry (now : Nat) (key : String) (s : ClientState)
    (hc : isConnected s = true) (hk : mapGet key s.pending = none) :
    sendMessageRequest now key s = s := by
  unfold sendMessageRequest
  rw [if_neg (by rw [hc]; exact fun hcon => absurd hcon (by simp)), hk]

theorem sendMessageRequest_connected_eq (now : Nat) (key : String) (s : ClientState)
    (p : IPending) (hc : s.connection = some ReadyState.OPEN)
    (hk : mapGet key s.pending = some p) :
    sendMessageRequest now key s =
      if due now p then
        { ensureSession s with
            sends := s.sends ++
              [{ requestId := key, sessionId := toString (sessionIdAfter s)
                 request := p.request, sentAt := now }]
            pending := modifyEntry key
              (if p.sent.isSome then pushRetry now else setSent now) s.pending }
      else ensureSession s := by
  have hct : isConnected s = true := (isConnected_eq_true_iff s).mpr hc
  have hopen : (ensureSession s).connection = some ReadyState.OPEN := by
    rw [ensureSession_connection]; exact hc
  unfold sendMessageRequest
  rw [if_neg (by rw [hct]; exact fun hcon => absurd hcon (by simp)), hk]
  simp only [send_of_open _ _ hopen, if_true, ensureSession_sends, ensureSession_pending]
  cases hsent : p.sent with
  | none =>
    simp only [due, hsent, Option.isSome_none, Bool.false_eq_true, if_false, if_true]
  | some si =>
    simp only [due, hsent, Option.isSome_some, if_true]
    by_cases hexp : now ≥ si.expiresAt
    · rw [if_pos (by simp [hexp])]
      cases hlast : p.retries.getLast? with
      | none =>
        simp only [hlast, isPendingSentInformationExpired]
        rw [if_neg (by simp), if_pos (by simp [hexp])]
      | some lastRetry =>
        simp only [hlast, isPendingSentInformationExpired]
        by_cases hre : now ≥ lastRetry.expiresAt
        · rw [if_neg (by simp [hre]), if_pos (by simp [hexp, hre])]
        · rw [if_pos (by simp [hre]), if_neg (by simp [hexp, hre])]
    · rw [if_neg (by simp [hexp]), if_neg (by simp [hexp])]

theorem pushRetry_resolverId (now : Nat) (p : IPending) :
    (pushRetry now p).resolverId = p.resolverId := rfl

theorem setSent_resolverId (now : Nat) (p : IPending) :
    (setSent now p).resolverId = p.resolverId := rfl

theorem attempt_resolverId (now : Nat) (p q : IPending) :
    ((if p.sent.isSome then pushRetry now else setSent now) q).resolverId =
      q.resolverId := by
  by_cases h : p.sent.isSome = true <;> simp [h, pushRetry, setSent]

theorem smr_resolutions (now : Nat) (k : String) (s : ClientState) :
    (sendMessageRequest now k s).resolutions = s.resolutions := by
  by_cases hc : isConnected s = false
  · rw [sendMessageRequest_not_connected now k s hc, connect_resolutions]
  · have hcon := isConnected_not_false s hc
    cases hk : mapGet k s.pending with
    | none =>
      rw [sendMessageRequest_no_entry now k s ((isConnected_eq_true_iff s).mpr hcon) hk]
    | some p =>
      rw [sendMessageRequest_connected_eq now k s p hcon hk]
      by_cases hd : due now p = true <;> simp [hd, ensureSession_resolutions]

theorem smr_reports (now : Nat) (k : String) (s : ClientState) :
    (sendMessageRequest now k s).reports = s.reports := by
  by_cases hc : isConnected s = false
  · rw [sendMessageRequest_not_connected now k s hc, connect_reports]
  · have hcon := isConnected_not_false s hc
    cases hk : mapGet k s.pending with
    | none =>
      rw [sendMessageRequest_no_entry now k s ((isConnected_eq_true_iff s).mpr hcon) hk]
    | some p =>
      rw [sendMessageRequest_connected_eq now k s p hcon hk]
      by_cases hd : due now p = true <;> simp [hd, ensureSession_reports]

theorem smr_keys (now : Nat) (k : String) (s : ClientState) :
    (sendMessageRequest now k s).pending.map Prod.fst = s.pending.map Prod.fst := by
  by_cases hc : isConnected s = false
  · rw [sendMessageRequest_not_connected now k s hc, connect_pending]
  · have hcon := isConnected_not_false s hc
    cases hk : mapGet k s.pending with
    | none =>
      rw [sendMessageRequest_no_entry now k s ((isConnected_eq_true_iff s).mpr hcon) hk]
    | some p =>
      rw [sendMessageRequest_connected_eq now k s p hcon hk]
      by_cases hd : due now p = true <;>
        simp [hd, ensureSession_pending, modifyEntry_keys]

theorem smr_resolverIds (now : Nat) (k : String) (s : ClientState) :
    resolverIdsOf (sendMessageRequest now k s).pending = resolverIdsOf s.pending := by
  by_cases hc : isConnected s = false
  · rw [sendMessageRequest_not_connected now k s hc, connect_pending]
  · have hcon := isConnected_not_false s hc
    cases hk : mapGet k s.pending with
    | none =>
      rw [sendMessageRequest_no_entry now k s ((isConnected_eq_true_iff s).mpr hcon) hk]
    | some p =>
      rw [sendMessageRequest_connected_eq now k s p hcon hk]
      by_cases hd : due now p = true
      · simp only [hd, if_true]
        show resolverIdsOf (modifyEntry k _ s.pending) = resolverIdsOf s.pending
        exact modifyEntry_resolverIds k _ s.pending (attempt_resolverId now p)
      · simp [hd, ensureSession_pending]

theorem smr_draws_le (now : Nat) (k : String) (s : ClientState) :
    s.draws ≤ (sendMessageRequest now k s).draws := by
  by_cases hc : isConnected s = false
  · rw [sendMessageRequest_not_connected now k s hc, connect_draws]
  · have hcon := isConnected_not_false s hc
    cases hk : mapGet k s.pending with
    | none =>
      rw [sendMessageRequest_no_entry now k s ((isConnected_eq_true_iff s).mpr hcon) hk]
    | some p =>
      rw [sendMessageRequest_connected_eq now k s p hcon hk]
      by_cases hd : due now p = true <;> simp [hd, ensureSession_draws_le]

theorem smr_session_persists (now : Nat) (k : String) (s : ClientState) (id : Nat)
    (h : s.session = some id) : (sendMessageRequest now k s).session = some id := by
  by_cases hc : isConnected s = false
  · rw [sendMessageRequest_not_connected now k s hc, connect_session]; exact h
  · have hcon := isConnected_not_false s hc
    cases hk : mapGet k s.pending with
    | none =>
      rw [sendMessageRequest_no_entry now k s ((isConnected_eq_true_iff s).mpr hcon) hk]
      exact h
    | some p =>
      rw [sendMessageRequest_connected_eq now k s p hcon hk]
      by_cases hd : due now p = true <;>
        simp [hd, ensureSession_session_persists s id h]

theorem smr_connection_open (now : Nat) (k : String) (s : ClientState)
    (h : s.connection = some ReadyState.OPEN) :
    (sendMessageRequest now k s).connection = some ReadyState.OPEN := by
  cases hk : mapGet k s.pending with
  | none =>
    rw [sendMessageRequest_no_entry now k s ((isConnected_eq_true_iff s).mpr h) hk]
    exact h
  | some p =>
    rw [sendMessageRequest_connected_eq now k s p h hk]
    by_cases hd : due now p = true <;> simp [hd, ensureSession_connection, h]

theorem smr_mapGet_other (now : Nat) (k kOther : String) (s : ClientState)
    (hne : kOther ≠ k) :
    mapGet kOther (sendMessageRequest now k s).pending = mapGet kOther s.pending := by
  by_cases hc : isConnected s = false
  · rw [sendMessageRequest_not_connected now k s hc, connect_pending]
  · have hcon := isConnected_not_false s hc
    cases hk : mapGet k s.pending with
    | none =>
      rw [sendMessageRequest_no_entry now k s ((isConnected_eq_true_iff s).mpr hcon) hk]
    | some p =>
      rw [sendMessageRequest_connected_eq now k s p hcon hk]
      by_cases hd : due now p = true
      · simp only [hd, if_true]
        show mapGet kOther (modifyEntry k _ s.pending) = mapGet kOther s.pending
        exact mapGet_modifyEntry_other k kOther _ s.pending hne
      · simp [hd, ensureSession_pending]

theorem smr_sends_tail (now : Nat) (k : String) (s : ClientState) :
    ∃ tail, (sendMessageRequest now k s).sends = s.sends ++ tail ∧
      ∀ f ∈ tail, f.requestId = k ∧ f.sentAt = now := by
  by_cases hc : isConnected s = false
  · rw [sendMessageRequest_not_connected now k s hc, connect_sends]
    exact ⟨[], by simp, by simp⟩
  · have hcon := isConnected_not_false s hc
    cases hk : mapGet k s.pending with
    | none =>
      rw [sendMessageRequest_no_entry now k s ((isConnected_eq_true_iff s).mpr hcon) hk]
      exact ⟨[], by simp, by simp⟩
    | some p =>
      rw [sendMessageRequest_connected_eq now k s p hcon hk]
      by_cases hd : due now p = true
      · refine ⟨[{ requestId := k, sessionId := toString (sessionIdAfter s)
                   request := p.request, sentAt := now }], by simp [hd], ?_⟩
        intro f hf
        simp at hf
        rw [hf]
        exact ⟨rfl, rfl⟩
      · rw [if_neg hd]
        exact ⟨[], by simp [ensureSession_sends], by simp⟩

theorem countFramesFor_append (k : String) (a b : List Frame) :
    countFramesFor k (a ++ b) = countFramesFor k a + countFramesFor k b := by
  unfold countFramesFor
  rw [List.filter_append, List.length_append]

theorem smr_count_other (now : Nat) (k kOther : String) (s : ClientState)
    (hne : kOther ≠ k) :
    countFramesFor kOther (sendMessageRequest now k s).sends =
      countFramesFor kOther s.sends := by
  rcases smr_sends_tail now k s with ⟨tail, heq, hall⟩
  rw [heq, countFramesFor_append]
  have : countFramesFor kOther tail = 0 := by
    unfold countFramesFor
    rw [List.length_eq_zero, List.filter_eq_nil_iff]
    intro f hf
    rw [(hall f hf).1]
    simp
    exact fun hc => hne hc.symm
  rw [this, Nat.add_zero]

theorem smr_count_self (now : Nat) (k : String) (s : ClientState) (p : IPending)
    (hc : s.connection = some ReadyState.OPEN) (hk : mapGet k s.pending = some p) :
    countFramesFor k (sendMessageRequest now k s).sends =
      countFramesFor k s.sends + (if due now p then 1 else 0) := by
  rw [sendMessageRequest_connected_eq now k s p hc hk]
  by_cases hd : due now p = true
  · simp only [hd, if_true]
    show countFramesFor k (s.sends ++ _) = _
    rw [countFramesFor_append]
    simp [countFramesFor]
  · simp [hd, ensureSession_sends]

theorem fold_smr_resolutions (now : Nat) (ks : List String) (s : ClientState) :
    ((ks.foldl (fun acc k => sendMessageRequest now k acc) s)).resolutions =
      s.resolutions := by
  induction ks generalizing s with
  | nil => rfl
  | cons k rest ih => rw [List.foldl_cons, ih, smr_resolutions]

theorem fold_smr_reports (now : Nat) (ks : List String) (s : ClientState) :
    ((ks.foldl (fun acc k => sendMessageRequest now k acc) s)).reports =
      s.reports := by
  induction ks generalizing s with
  | nil => rfl
  | cons k rest ih => rw [List.foldl_cons, ih, smr_reports]

theorem fold_smr_resolverIds (now : Nat) (ks : List String) (s : ClientState) :
    resolverIdsOf ((ks.foldl (fun acc k => sendMessageRequest now k acc) s)).pending =
      resolverIdsOf s.pending := by
  induction ks generalizing s with
  | nil => rfl
  | cons k rest ih => rw [List.foldl_cons, ih, smr_resolverIds]

theorem fold_smr_draws_le (now : Nat) (ks : List String) (s : ClientState) :
    s.draws ≤ ((ks.foldl (fun acc k => sendMessageRequest now k acc) s)).draws := by
  induction ks generalizing s with
  | nil => exact Nat.le_refl _
  | cons k rest ih =>
    rw [List.foldl_cons]
    exact Nat.le_trans (smr_draws_le now k s) (ih _)

theorem fold_smr_session_persists (now : Nat) (ks : List String) (s : ClientState)
    (id : Nat) (h : s.session = some id) :
    ((ks.foldl (fun acc k => sendMessageRequest now k acc) s)).session = some id := by
  induction ks generalizing s with
  | nil => exact h
  | cons k rest ih =>
    rw [List.foldl_cons]
    exact ih _ (smr_session_persists now k s id h)

theorem fold_smr_count_not_mem (now : Nat) (ks : List String) (s : ClientState)
    (k : String) (h : k ∉ ks) :
    countFramesFor k ((ks.foldl (fun acc k2 => sendMessageRequest now k2 acc) s)).sends =
      countFramesFor k s.sends := by
  induction ks generalizing s with
  | nil => rfl
  | cons khd rest ih =>
    rw [List.foldl_cons]
    rw [ih _ (fun hm => h (List.mem_cons_of_mem _ hm))]
    exact smr_count_other now khd k s
      (fun he => h (by rw [he]; exact List.mem_cons_self _ _))

theorem fold_smr_count (now : Nat) (ks : List String) (s : ClientState)
    (hconn : s.connection = some ReadyState.OPEN) (hnodup : ks.Nodup) :
    ∀ k p, k ∈ ks → mapGet k s.pending = some p →
      countFramesFor k ((ks.foldl (fun acc k2 => sendMessageRequest now k2 acc) s)).sends =
        countFramesFor k s.sends + (if due now p then 1 else 0) := by
  induction ks generalizing s with
  | nil =>
    intro k p hmem
    cases hmem
  | cons khd rest ih =>
    intro k p hmem hk
    rw [List.foldl_cons]
    rcases List.mem_cons.mp hmem with heq | hmem2
    · subst heq
      have hnotin : k ∉ rest := (List.nodup_cons.mp hnodup).1
      rw [fold_smr_count_not_mem now rest _ k hnotin]
      exact smr_count_self now k s p hconn hk
    · have hne : k ≠ khd := by
        rintro rfl
        exact (List.nodup_cons.mp hnodup).1 hmem2
      have hk2 : mapGet k (sendMessageRequest now khd s).pending = some p := by
        rw [smr_mapGet_other now khd k s hne]
        exact hk
      rw [ih (sendMessageRequest now khd s) (smr_connection_open now khd s hconn)
        (List.nodup_cons.mp hnodup).2 k p hmem2 hk2]
      rw [smr_count_other now khd k s hne]

theorem onMessage_session (m : ServerMessage) (s : ClientState) :
    (onMessage m s).session = s.session := by
  cases m with
  | acknowledge id =>
    simp only [onMessage]
    cases hk : mapGet id s.pending with
    | none => rfl
    | some p => cases hp : p.acknowledged <;> simp [hp]
  | protocolError => rfl
  | resultSuccess id r =>
    simp only [onMessage]
    cases hk : mapGet id s.pending with
    | none => rfl
    | some p => rfl
  | resultError id e =>
    simp only [onMessage]
    cases hk : mapGet id s.pending with
    | none => rfl
    | some p => rfl
  | unrecognized => rfl

theorem onMessage_connection (m : ServerMessage) (s : ClientState) :
    (onMessage m s).connection = s.connection := by
  cases m with
  | acknowledge id =>
    simp only [onMessage]
    cases hk : mapGet id s.pending with
    | none => rfl
    | some p => cases hp : p.acknowledged <;> simp [hp]
  | protocolError => rfl
  | resultSuccess id r =>
    simp only [onMessage]
    cases hk : mapGet id s.pending with
    | none => rfl
    | some p => rfl
  | resultError id e =>
    simp only [onMessage]
    cases hk : mapGet id s.pending with
    | none => rfl
    | some p => rfl
  | unrecognized => rfl

theorem onMessage_draws (m : ServerMessage) (s : ClientState) :
    (onMessage m s).draws = s.draws := by
  cases m with
  | acknowledge id =>
    simp only [onMessage]
    cases hk : mapGet id s.pending with
    | none => rfl
    | some p => cases hp : p.acknowledged <;> simp [hp]
  | protocolError => rfl
  | resultSuccess id r =>
    simp only [onMessage]
    cases hk : mapGet id s.pending with
    | none => rfl
    | some p => rfl
  | resultError id e =>
    simp only [onMessage]
    cases hk : mapGet id s.pending with
    | none => rfl
    | some p => rfl
  | unrecognized => rfl

theorem step_session_persists (t : Nat) (e : Event) (s : ClientState) (id : Nat)
    (h : s.session = some id) : (step t e s).session = some id := by
  cases e with
  | sendMessage req mrc =>
    show (sendMessage t req mrc s).session = some id
    unfold sendMessage
    exact smr_session_persists _ _ _ id h
  | transportOpen =>
    unfold step
    cases hc : s.connection with
    | none => exact h
    | some rs =>
      unfold onOpen checkPendingRequests
      exact fold_smr_session_persists _ _ _ id h
  | transportClose =>
    unfold step
    cases hc : s.connection with
    | none => exact h
    | some rs =>
      unfold onClose
      rw [connect_session]
      exact h
  | transportError => exact h
  | transportMessage m =>
    show (onMessage m s).session = some id
    rw [onMessage_session]
    exact h

theorem invCore_transfer (pend pendNew : List (String × IPending))
    (res resNew : List Resolution) (draws drawsNew : Nat)
    (hres : resNew = res) (hrid : resolverIdsOf pendNew = resolverIdsOf pend)
    (hd : draws ≤ drawsNew) (h : InvCore pend res draws) :
    InvCore pendNew resNew drawsNew := by
  obtain ⟨h1, h2, h3, h4, h5⟩ := h
  subst hres
  refine ⟨?_, ?_, ?_, h4, ?_⟩
  · intro kv hkv
    have hmem : kv.2.resolverId ∈ resolverIdsOf pendNew :=
      List.mem_map.mpr ⟨kv, hkv, rfl⟩
    rw [hrid] at hmem
    rcases List.mem_map.mp hmem with ⟨kv2, hkv2, heq⟩
    rw [← heq]
    exact Nat.lt_of_lt_of_le (h1 kv2 hkv2) hd
  · intro r hr
    exact Nat.lt_of_lt_of_le (h2 r hr) hd
  · rw [show resolverIdsOf pendNew = resolverIdsOf pend from hrid]
    exact h3
  · intro r hr kv hkv
    have hmem : kv.2.resolverId ∈ resolverIdsOf pendNew :=
      List.mem_map.mpr ⟨kv, hkv, rfl⟩
    rw [hrid] at hmem
    rcases List.mem_map.mp hmem with ⟨kv2, hkv2, heq⟩
    rw [← heq]
    exact h5 r hr kv2 hkv2

theorem inv_smr (now : Nat) (k : String) (s : ClientState) (h : Inv s) :
    Inv (sendMessageRequest now k s) :=
  invCore_transfer s.pending _ s.resolutions _ s.draws _
    (smr_resolutions now k s) (smr_resolverIds now k s) (smr_draws_le now k s) h

theorem inv_fold_smr (now : Nat) (ks : List String) (s : ClientState) (h : Inv s) :
    Inv ((ks.foldl (fun acc k => sendMessageRequest now k acc) s)) :=
  invCore_transfer s.pending _ s.resolutions _ s.draws _
    (fold_smr_resolutions now ks s) (fold_smr_resolverIds now ks s)
    (fold_smr_draws_le now ks s) h

theorem inv_connect (s : ClientState) (h : Inv s) : Inv (connect s) :=
  invCore_transfer s.pending _ s.resolutions _ s.draws _
    (connect_resolutions s) (by rw [connect_pending]) (Nat.le_of_eq (connect_draws s).symm) h

theorem inv_sendMessage (t req mrc : Nat) (s : ClientState) (h : Inv s) :
    Inv (sendMessage t req mrc s) := by
  simp only [sendMessage]
  apply inv_smr
  obtain ⟨h1, h2, h3, h4, h5⟩ := h
  have hnot : s.draws ∉ resolverIdsOf s.pending := by
    intro hc
    rcases List.mem_map.mp hc with ⟨kv, hkv, heq⟩
    exact absurd (heq ▸ h1 kv hkv) (Nat.lt_irrefl s.draws)
  refine ⟨?_, ?_, ?_, h4, ?_⟩
  · intro kv hkv
    rcases mapSet_mem _ _ _ kv hkv with hc | hc
    · rw [hc]
      exact Nat.lt_succ_self _
    · exact Nat.lt_succ_of_lt (h1 kv hc)
  · intro r hr
    exact Nat.lt_succ_of_lt (h2 r hr)
  · exact mapSet_rids_nodup _ _ _ hnot h3
  · intro r hr kv hkv
    rcases mapSet_mem _ _ _ kv hkv with hc | hc
    · rw [hc]
      intro heq
      have hlt := h2 r hr
      rw [← heq] at hlt
      exact Nat.lt_irrefl _ hlt
    · exact h5 r hr kv hc

theorem inv_onMessage (m : ServerMessage) (s : ClientState) (h : Inv s) :
    Inv (onMessage m s) := by
  cases m with
  | acknowledge id =>
    simp only [onMessage]
    cases hk : mapGet id s.pending with
    | none => exact h
    | some p =>
      dsimp only
      by_cases hp : p.acknowledged = true
      · rw [if_pos hp]
        exact h
      · rw [if_neg hp]
        refine invCore_transfer s.pending _ s.resolutions _ s.draws _ rfl ?_ (Nat.le_refl _) h
        show resolverIdsOf
            (modifyEntry id (fun q => { q with acknowledged := true }) s.pending) =
          resolverIdsOf s.pending
        exact modifyEntry_resolverIds _ _ _ (fun q => rfl)
  | protocolError => exact h
  | resultSuccess id r =>
    simp only [onMessage]
    cases hk : mapGet id s.pending with
    | none => exact h
    | some p =>
      obtain ⟨h1, h2, h3, h4, h5⟩ := h
      have hp : (id, p) ∈ s.pending := mapGet_some_mem id s.pending p hk
      refine ⟨?_, ?_, ?_, ?_, ?_⟩
      · intro kv hkv
        exact h1 kv (eraseKey_mem id s.pending kv hkv).1
      · intro rr hrr
        rcases List.mem_append.mp hrr with hc | hc
        · exact h2 rr hc
        · rw [List.mem_singleton.mp hc]
          exact h1 (id, p) hp
      · exact List.Nodup.sublist (eraseKey_rids_sublist id s.pending) h3
      · rw [List.map_append]
        rw [List.nodup_append]
        refine ⟨h4, List.nodup_singleton _, ?_⟩
        intro x hx hxs
        rcases List.mem_map.mp hx with ⟨rr, hrr, heq⟩
        have hxp : x = p.resolverId := by
          simpa using hxs
        apply h5 rr hrr (id, p) hp
        show p.resolverId = rr.resolverId
        rw [← hxp, ← heq]
      · intro rr hrr kv hkv
        have hkv2 := eraseKey_mem id s.pending kv hkv
        rcases List.mem_append.mp hrr with hc | hc
        · exact h5 rr hc kv hkv2.1
        · rw [List.mem_singleton.mp hc]
          show kv.2.resolverId ≠ p.resolverId
          intro heq
          have := List.inj_on_of_nodup_map h3 hkv2.1 hp heq
          exact hkv2.2 (by rw [this])
  | resultError id e =>
    simp only [onMessage]
    cases hk : mapGet id s.pending with
    | none => exact h
    | some p =>
      obtain ⟨h1, h2, h3, h4, h5⟩ := h
      have hp : (id, p) ∈ s.pending := mapGet_some_mem id s.pending p hk
      refine ⟨?_, ?_, ?_, ?_, ?_⟩
      · intro kv hkv
        exact h1 kv (eraseKey_mem id s.pending kv hkv).1
      · intro rr hrr
        rcases List.mem_append.mp hrr with hc | hc
        · exact h2 rr hc
        · rw [List.mem_singleton.mp hc]
          exact h1 (id, p) hp
      · exact List.Nodup.sublist (eraseKey_rids_sublist id s.pending) h3
      · rw [List.map_append]
        rw [List.nodup_append]
        refine ⟨h4, List.nodup_singleton _, ?_⟩
        intro x hx hxs
        rcases List.mem_map.mp hx with ⟨rr, hrr, heq⟩
        have hxp : x = p.resolverId := by
          simpa using hxs
        apply h5 rr hrr (id, p) hp
        show p.resolverId = rr.resolverId
        rw [← hxp, ← heq]
      · intro rr hrr kv hkv
        have hkv2 := eraseKey_mem id s.pending kv hkv
        rcases List.mem_append.mp hrr with hc | hc
        · exact h5 rr hc kv hkv2.1
        · rw [List.mem_singleton.mp hc]
          show kv.2.resolverId ≠ p.resolverId
          intro heq
          have := List.inj_on_of_nodup_map h3 hkv2.1 hp heq
          exact hkv2.2 (by rw [this])
  | unrecognized => exact h

theorem inv_step (t : Nat) (e : Event) (s : ClientState) (h : Inv s) :
    Inv (step t e s) := by
  cases e with
  | sendMessage req mrc => exact inv_sendMessage t req mrc s h
  | transportOpen =>
    unfold step
    cases hc : s.connection with
    | none => exact h
    | some rs => exact inv_fold_smr t _ _ h
  | transportClose =>
    unfold step
    cases hc : s.connection with
    | none => exact h
    | some rs => exact inv_connect _ h
  | transportError => exact h
  | transportMessage m => exact inv_onMessage m s h

theorem inv_run (s : ClientState) (tr : List (Nat × Event)) (h : Inv s) :
    Inv (run s tr) := by
  induction tr generalizing s with
  | nil => exact h
  | cons te rest ih => exact ih _ (inv_step te.1 te.2 s h)

theorem inv_initState (rng : Nat → Nat) : Inv (initState rng) := by
  refine ⟨?_, ?_, ?_, ?_, ?_⟩ <;> simp [initState, resolverIdsOf]

theorem mapGet_erase (k : String) (m : List (String × IPending)) :
    mapGet k (m.map (fun kv => (kv.1, erasePendingMrc kv.2))) =
      (mapGet k m).map erasePendingMrc := by
  induction m with
  | nil => rfl
  | cons kv rest ih =>
    simp only [List.map_cons, mapGet]
    by_cases hk : kv.1 = k
    · rw [if_pos hk, if_pos hk]
      rfl
    · rw [if_neg hk, if_neg hk]
      exact ih

theorem modifyEntry_erase (k : String) (f g : IPending → IPending)
    (m : List (String × IPending))
    (hfg : ∀ p, f (erasePendingMrc p) = erasePendingMrc (g p)) :
    modifyEntry k f (m.map (fun kv => (kv.1, erasePendingMrc kv.2))) =
      (modifyEntry k g m).map (fun kv => (kv.1, erasePendingMrc kv.2)) := by
  induction m with
  | nil => rfl
  | cons kv rest ih =>
    simp only [List.map_cons, modifyEntry] at *
    by_cases hk : kv.1 = k
    · rw [if_pos hk, if_pos hk]
      refine congrArg₂ _ ?_ ih
      show (kv.1, f (erasePendingMrc kv.2)) =
        ((kv.1, g kv.2).1, erasePendingMrc (kv.1, g kv.2).2)
      rw [hfg]
    · rw [if_neg hk, if_neg hk]
      exact congrArg₂ _ rfl ih

theorem eraseKey_erase (k : String) (m : List (String × IPending)) :
    eraseKey k (m.map (fun kv => (kv.1, erasePendingMrc kv.2))) =
      (eraseKey k m).map (fun kv => (kv.1, erasePendingMrc kv.2)) := by
  unfold eraseKey
  rw [List.filter_map]
  rfl

theorem mapSet_erase (k : String) (v : IPending) (m : List (String × IPending)) :
    mapSet k (erasePendingMrc v) (m.map (fun kv => (kv.1, erasePendingMrc kv.2))) =
      (mapSet k v m).map (fun kv => (kv.1, erasePendingMrc kv.2)) := by
  induction m with
  | nil => rfl
  | cons kv rest ih =>
    simp only [List.map_cons, mapSet]
    by_cases hk : kv.1 = k
    · rw [if_pos hk, if_pos hk]
      rfl
    · rw [if_neg hk, if_neg hk]
      rw [List.map_cons]
      exact congrArg₂ _ rfl ih

theorem isConnected_erase (s : ClientState) :
    isConnected (eraseMrc s) = isConnected s := rfl

theorem connect_erase (s : ClientState) :
    connect (eraseMrc s) = eraseMrc (connect s) := by
  cases s with
  | mk pnd ses con rng dws snd res rep => cases con <;> rfl

theorem ensureSession_erase (s : ClientState) :
    ensureSession (eraseMrc s) = eraseMrc (ensureSession s) := by
  cases s with
  | mk pnd ses con rng dws snd res rep => cases ses <;> rfl

theorem sessionIdAfter_erase (s : ClientState) :
    sessionIdAfter (eraseMrc s) = sessionIdAfter s := by
  cases s with
  | mk pnd ses con rng dws snd res rep => cases ses <;> rfl

theorem due_erase (now : Nat) (p : IPending) :
    due now (erasePendingMrc p) = due now p := rfl

theorem smr_erase (now : Nat) (k : String) (s : ClientState) :
    sendMessageRequest now k (eraseMrc s) = eraseMrc (sendMessageRequest now k s) := by
  by_cases hc : isConnected s = false
  · rw [sendMessageRequest_not_connected now k s hc,
      sendMessageRequest_not_connected now k (eraseMrc s) (by rw [isConnected_erase]; exact hc),
      connect_erase]
  · have hcon := isConnected_not_false s hc
    have hconE : (eraseMrc s).connection = some ReadyState.OPEN := hcon
    cases hk : mapGet k s.pending with
    | none =>
      have hkE : mapGet k (eraseMrc s).pending = none := by
        show mapGet k (s.pending.map _) = none
        rw [mapGet_erase, hk]
        rfl
      rw [sendMessageRequest_no_entry now k s ((isConnected_eq_true_iff s).mpr hcon) hk,
        sendMessageRequest_no_entry now k (eraseMrc s)
          ((isConnected_eq_true_iff (eraseMrc s)).mpr hconE) hkE]
    | some p =>
      have hkE : mapGet k (eraseMrc s).pending = some (erasePendingMrc p) := by
        show mapGet k (s.pending.map _) = some (erasePendingMrc p)
        rw [mapGet_erase, hk]
        rfl
      rw [sendMessageRequest_connected_eq now k s p hcon hk,
        sendMessageRequest_connected_eq now k (eraseMrc s) (erasePendingMrc p) hconE hkE]
      rw [due_erase]
      by_cases hd : due now p = true
      · rw [if_pos hd, if_pos hd]
        rw [ensureSession_erase, sessionIdAfter_erase]
        have hmod : modifyEntry k
            (if (erasePendingMrc p).sent.isSome then pushRetry now else setSent now)
            (eraseMrc s).pending =
            (modifyEntry k (if p.sent.isSome then pushRetry now else setSent now)
              s.pending).map (fun kv => (kv.1, erasePendingMrc kv.2)) := by
          show modifyEntry k _ (s.pending.map _) = _
          apply modifyEntry_erase
          intro q
          by_cases hs : p.sent.isSome = true
          · have hsE : (erasePendingMrc p).sent.isSome = true := hs
            rw [if_pos hs, if_pos hsE]
            rfl
          · have hsE : ¬ (erasePendingMrc p).sent.isSome = true := hs
            rw [if_neg hs, if_neg hsE]
            rfl
        rw [hmod]
        rfl
      · rw [if_neg hd, if_neg hd]
        exact ensureSession_erase s

theorem eraseMrc_keys (s : ClientState) :
    (eraseMrc s).pending.map Prod.fst = s.pending.map Prod.fst := by
  show (s.pending.map _).map Prod.fst = s.pending.map Prod.fst
  rw [List.map_map]
  rfl

theorem fold_smr_erase (now : Nat) (ks : List String) (s : ClientState) :
    ks.foldl (fun acc k => sendMessageRequest now k acc) (eraseMrc s) =
      eraseMrc (ks.foldl (fun acc k => sendMessageRequest now k acc) s) := by
  induction ks generalizing s with
  | nil => rfl
  | cons k rest ih =>
    rw [List.foldl_cons, List.foldl_cons, smr_erase, ih]

theorem checkPendingRequests_erase (now : Nat) (s : ClientState) :
    checkPendingRequests now (eraseMrc s) = eraseMrc (checkPendingRequests now s) := by
  unfold checkPendingRequests
  rw [eraseMrc_keys]
  exact fold_smr_erase now _ s

theorem sendMessage_erase (t req mrc : Nat) (s : ClientState) :
    sendMessage t req 0 (eraseMrc s) = eraseMrc (sendMessage t req mrc s) := by
  cases s with
  | mk pnd ses con rng dws snd res rep =>
    simp only [sendMessage]
    dsimp only [eraseMrc]
    have hset : mapSet (toString (rng dws))
        ({ requestId := rng dws, acknowledged := false, request := req
           maxRetryCount := 0, retries := [], sent := none, resolverId := dws } : IPending)
        (pnd.map fun kv => (kv.1, erasePendingMrc kv.2)) =
        (mapSet (toString (rng dws))
          { requestId := rng dws, acknowledged := false, request := req
            maxRetryCount := mrc, retries := [], sent := none, resolverId := dws }
          pnd).map (fun kv => (kv.1, erasePendingMrc kv.2)) :=
      mapSet_erase (toString (rng dws))
        { requestId := rng dws, acknowledged := false, request := req
          maxRetryCount := mrc, retries := [], sent := none, resolverId := dws } pnd
    rw [hset]
    exact smr_erase t (toString (rng dws))
      { pending := mapSet (toString (rng dws))
          { requestId := rng dws, acknowledged := false, request := req
            maxRetryCount := mrc, retries := [], sent := none, resolverId := dws } pnd
        session := ses, connection := con, rng := rng, draws := dws + 1
        sends := snd, resolutions := res, reports := rep }

theorem onMessage_erase (m : ServerMessage) (s : ClientState) :
    onMessage m (eraseMrc s) = eraseMrc (onMessage m s) := by
  cases m with
  | acknowledge id =>
    simp only [onMessage]
    cases hk : mapGet id s.pending with
    | none =>
      have hkE : mapGet id (eraseMrc s).pending = none := by
        show mapGet id (s.pending.map _) = none
        rw [mapGet_erase, hk]
        rfl
      rw [hkE]
      rfl
    | some p =>
      have hkE : mapGet id (eraseMrc s).pending = some (erasePendingMrc p) := by
        show mapGet id (s.pending.map _) = some (erasePendingMrc p)
        rw [mapGet_erase, hk]
        rfl
      rw [hkE]
      dsimp only
      by_cases hp : p.acknowledged = true
      · have hpE : (erasePendingMrc p).acknowledged = true := hp
        rw [if_pos hp, if_pos hpE]
        rfl
      · have hpE : ¬ (erasePendingMrc p).acknowledged = true := hp
        rw [if_neg hp, if_neg hpE]
        have hmod : modifyEntry id (fun q => { q with acknowledged := true })
            (eraseMrc s).pending =
            (modifyEntry id (fun q => { q with acknowledged := true })
              s.pending).map (fun kv => (kv.1, erasePendingMrc kv.2)) := by
          show modifyEntry id _ (s.pending.map _) = _
          exact modifyEntry_erase id _ _ s.pending (fun q => rfl)
        cases s with
        | mk pnd ses con rng dws snd res rep =>
          simp only [eraseMrc] at *
          rw [hmod]
  | protocolError => rfl
  | resultSuccess id r =>
    simp only [onMessage]
    cases hk : mapGet id s.pending with
    | none =>
      have hkE : mapGet id (eraseMrc s).pending = none := by
        show mapGet id (s.pending.map _) = none
        rw [mapGet_erase, hk]
        rfl
      rw [hkE]
      rfl
    | some p =>
      have hkE : mapGet id (eraseMrc s).pending = some (erasePendingMrc p) := by
        show mapGet id (s.pending.map _) = some (erasePendingMrc p)
        rw [mapGet_erase, hk]
        rfl
      rw [hkE]
      dsimp only
      have hrid : (erasePendingMrc p).resolverId = p.resolverId := rfl
      rw [hrid]
      have herase : eraseKey id (eraseMrc s).pending =
          (eraseKey id s.pending).map (fun kv => (kv.1, erasePendingMrc kv.2)) := by
        show eraseKey id (s.pending.map _) = _
        exact eraseKey_erase id s.pending
      cases s with
      | mk pnd ses con rng dws snd res rep =>
        simp only [eraseMrc] at *
        rw [herase]
  | resultError id e =>
    simp only [onMessage]
    cases hk : mapGet id s.pending with
    | none =>
      have hkE : mapGet id (eraseMrc s).pending = none := by
        show mapGet id (s.pending.map _) = none
        rw [mapGet_erase, hk]
        rfl
      rw [hkE]
      rfl
    | some p =>
      have hkE : mapGet id (eraseMrc s).pending = some (erasePendingMrc p) := by
        show mapGet id (s.pending.map _) = some (erasePendingMrc p)
        rw [mapGet_erase, hk]
        rfl
      rw [hkE]
      dsimp only
      have hrid : (erasePendingMrc p).resolverId = p.resolverId := rfl
      rw [hrid]
      have herase : eraseKey id (eraseMrc s).pending =
          (eraseKey id s.pending).map (fun kv => (kv.1, erasePendingMrc kv.2)) := by
        show eraseKey id (s.pending.map _) = _
        exact eraseKey_erase id s.pending
      cases s with
      | mk pnd ses con rng dws snd res rep =>
        simp only [eraseMrc] at *
        rw [herase]
  | unrecognized => rfl

theorem step_erase (t : Nat) (e : Event) (s : ClientState) :
    step t (stripMrc e) (eraseMrc s) = eraseMrc (step t e s) := by
  cases e with
  | sendMessage req mrc => exact sendMessage_erase t req mrc s
  | transportOpen =>
    cases s with
    | mk pnd ses con rng dws snd res rep =>
      cases con with
      | none => rfl
      | some rs =>
        exact checkPendingRequests_erase t
          { pending := pnd, session := ses, connection := some ReadyState.OPEN
            rng := rng, draws := dws, sends := snd, resolutions := res, reports := rep }
  | transportClose =>
    cases s with
    | mk pnd ses con rng dws snd res rep =>
      cases con with
      | none => rfl
      | some rs =>
        exact connect_erase
          { pending := pnd, session := ses, connection := none, rng := rng
            draws := dws, sends := snd, resolutions := res
            reports := rep ++ [Report.closeEvent] }
  | transportError => rfl
  | transportMessage m => exact onMessage_erase m s

theorem run_erase (s : ClientState) (tr : List (Nat × Event)) :
    run (eraseMrc s) (stripMrcTrace tr) = eraseMrc (run s tr) := by
  induction tr generalizing s with
  | nil => rfl
  | cons te rest ih =>
    show run (step te.1 (stripMrc te.2) (eraseMrc s)) (stripMrcTrace rest) = _
    rw [step_erase]
    exact ih _

theorem eraseMrc_initState (rng : Nat → Nat) :
    eraseMrc (initState rng) = initState rng := rfl

/-- Claim C1, counterexample: running one request through a close followed by
a much later open re-sends the request, but both transport writes carry the
same session id "1", and the session field still holds that id. The claim
says the re-sent frame carries a session id different from the one used
before the close; onClose discards only the transport, never the session. -/
theorem c1_counterexample :
    (run (initState (fun n => n)) traceSessionReuse).sends.map
        (fun f => (f.requestId, f.sessionId)) = [("0", "1"), ("0", "1")] ∧
    (run (initState (fun n => n)) traceSessionReuse).session = some 1 := by
  constructor <;> decide

/-- Claim C1, amended: on a close event the client discards the transport
instance and immediately reconnects, but it retains the current session;
a session id, once created, survives every event (including close), so a
request re-sent after reconnection carries the same session id as before. -/
theorem c1_amended_session_retained (s : ClientState) :
    ((onClose s).session = s.session ∧
      (onClose s).connection = some ReadyState.CONNECTING) ∧
    ∀ t e sid, s.session = some sid → (step t e s).session = some sid :=
  ⟨⟨rfl, rfl⟩, fun t e sid h => step_session_persists t e s sid h⟩

/-- Witness for the amended claim C1 at a concrete state with session id 5. -/
theorem c1_amended_witness :
    (step 0 Event.transportError exSessionState).session = some 5 :=
  (c1_amended_session_retained exSessionState).2 0 Event.transportError 5 rfl

/-- Claim C2: in every reachable state, each stored resolver has been
invoked at most once (the resolution trace never repeats a resolver), and a
resolver that has been invoked no longer has an entry in the pending
registry (resolution happens exactly at the step that removes the entry, so
after removal the entry is never resolved again). -/
theorem c2_single_resolution (rng : Nat → Nat) (tr : List (Nat × Event)) :
    ((run (initState rng) tr).resolutions.map Resolution.resolverId).Nodup ∧
    ∀ r ∈ (run (initState rng) tr).resolutions,
      ∀ kv ∈ (run (initState rng) tr).pending, kv.2.resolverId ≠ r.resolverId := by
  have h := inv_run (initState rng) tr (inv_initState rng)
  exact ⟨h.2.2.2.1, h.2.2.2.2⟩

/-- Claim C3, counterexample: one request is sent at 1 ms, the connection
closes at 2 ms and reopens at 3 ms; the request is still pending and the
transport reports open, yet the total number of transport writes is still 1:
the pending request received no fresh send attempt after the open because
its 10-second send window had not expired. -/
theorem c3_counterexample :
    (run (initState (fun n => n)) traceFastReconnect).pending.length = 1 ∧
    (run (initState (fun n => n)) traceFastReconnect).connection =
      some ReadyState.OPEN ∧
    (run (initState (fun n => n)) traceFastReconnect).sends.length = 1 := by
  refine ⟨?_, ?_, ?_⟩ <;> decide

/-- Claim C3, amended: after an open event every pending request is driven
once, and a pending request receives a fresh transport write in that pass
exactly when it is due: never sent, or its initial send has expired and its
most recent retry record (if any) has expired. A pending request inside an
unexpired window receives no write in the open pass. -/
theorem c3_amended_open_drive (t : Nat) (s : ClientState) (c : ReadyState)
    (hconn : s.connection = some c)
    (hnodup : (s.pending.map Prod.fst).Nodup) :
    ∀ k p, mapGet k s.pending = some p →
      countFramesFor k (step t Event.transportOpen s).sends =
        countFramesFor k s.sends + (if due t p then 1 else 0) := by
  intro k p hk
  have hstep : step t Event.transportOpen s =
      checkPendingRequests t { s with connection := some ReadyState.OPEN } := by
    simp only [step, hconn]
    rfl
  have hmem : k ∈ s.pending.map Prod.fst :=
    List.mem_map.mpr ⟨(k, p), mapGet_some_mem k s.pending p hk, rfl⟩
  rw [hstep]
  unfold checkPendingRequests
  exact fold_smr_count t _ _ rfl hnodup k p hmem hk

/-- Witness for the amended claim C3: an open pass over a state with one
never-sent pending request writes exactly one frame for it. -/
theorem c3_amended_witness :
    countFramesFor "0" (step 3 Event.transportOpen exConnectingState).sends = 1 := by
  have h := c3_amended_open_drive 3 exConnectingState ReadyState.CONNECTING rfl
    (by decide) "0" exPendingUnsent (by decide)
  rw [h]
  decide

/-- Claim C4: a drive pass over a pending entry on an open transport writes
to the transport exactly when the request was never sent, or the initial
send has expired (now is at or past its expiresAt) and the most recent
retry record, if any, has also expired; so no two send attempts fall in the
same unexpired 10-second window. In particular a pass 5 seconds after the
initial send writes nothing and a pass at 10 seconds writes one retry. -/
theorem c4_drive_pass_window (now : Nat) (key : String) (s : ClientState)
    (p : IPending) (hc : s.connection = some ReadyState.OPEN)
    (hk : mapGet key s.pending = some p) :
    (sendMessageRequest now key s).sends =
      s.sends ++ (if due now p then
        [{ requestId := key, sessionId := toString (sessionIdAfter s)
           request := p.request, sentAt := now }] else []) := by
  rw [sendMessageRequest_connected_eq now key s p hc hk]
  by_cases hd : due now p = true
  · rw [if_pos hd, if_pos hd]
  · rw [if_neg hd, if_neg hd, ensureSession_sends, List.append_nil]

/-- Witness for claim C4: for an entry sent at 0 ms (expiry 10000 ms) a
drive pass at 5000 ms writes nothing and a pass at 10000 ms writes exactly
one retry frame. -/
theorem c4_witness :
    (sendMessageRequest 5000 "7" exConnectedState).sends = [] ∧
    (sendMessageRequest 10000 "7" exConnectedState).sends =
      [{ requestId := "7", sessionId := "3", request := 42, sentAt := 10000 }] := by
  constructor
  · rw [c4_drive_pass_window 5000 "7" exConnectedState exPendingSentAtZero rfl
      (by decide)]
    decide
  · rw [c4_drive_pass_window 10000 "7" exConnectedState exPendingSentAtZero rfl
      (by decide)]
    decide

/-- Claim C5: maxRetryCount is stored but never consulted. Two runs over
traces that agree except for the maxRetryCount options of their sendMessage
calls produce identical states up to the stored maxRetryCount fields: the
same transport writes, retry records, resolutions, reports, session and
connection, so retries continue regardless of how many have accumulated. -/
theorem c5_maxRetryCount_independent (rng : Nat → Nat)
    (tr1 tr2 : List (Nat × Event)) (h : stripMrcTrace tr1 = stripMrcTrace tr2) :
    eraseMrc (run (initState rng) tr1) = eraseMrc (run (initState rng) tr2) := by
  rw [← run_erase, ← run_erase, eraseMrc_initState, h]

/-- Witness for claim C5 on two concrete traces whose only difference is a
maxRetryCount of 4 versus 999. -/
theorem c5_witness :
    eraseMrc (run (initState (fun n => n)) traceMrcFour) =
      eraseMrc (run (initState (fun n => n)) traceMrcLarge) :=
  c5_maxRetryCount_independent (fun n => n) traceMrcFour traceMrcLarge (by decide)

/-- Claim C6: an Acknowledge frame for a pending entry whose acknowledged
flag is already true only appends a duplicate-acknowledgment report; the
registry, the entry (acknowledged stays true) and every other field of the
client state are unchanged. -/
theorem c6_duplicate_ack_reported (id : String) (s : ClientState) (p : IPending)
    (hk : mapGet id s.pending = some p) (hack : p.acknowledged = true) :
    onMessage (ServerMessage.acknowledge id) s =
      { s with reports := s.reports ++ [Report.ackDuplicate id] } := by
  simp only [onMessage]
  rw [hk]
  dsimp only
  rw [if_pos hack]

/-- Witness for claim C6 at a concrete state with an acknowledged entry. -/
theorem c6_witness :
    onMessage (ServerMessage.acknowledge "1") exAckedState =
      { exAckedState with
          reports := exAckedState.reports ++ [Report.ackDuplicate "1"] } :=
  c6_duplicate_ack_reported "1" exAckedState exPendingAcked (by decide) rfl

/-- Claim C7: at most one transport instance exists per client: connect is a
no-op whenever a transport instance already exists (even before its open
event), and a drive pass invoked while not connected only performs connect
and sends nothing in that pass. -/
theorem c7_single_transport (s : ClientState) :
    (s.connection ≠ none → connect s = s) ∧
    ∀ now key, isConnected s = false →
      sendMessageRequest now key s = connect s ∧
      (sendMessageRequest now key s).sends = s.sends := by
  constructor
  · intro h
    unfold connect
    cases hc : s.connection with
    | none => exact absurd hc h
    | some rs => rfl
  · intro now key h
    refine ⟨sendMessageRequest_not_connected now key s h, ?_⟩
    rw [sendMessageRequest_not_connected now key s h, connect_sends]

/-- Witness for claim C7 at a state whose transport is mid-handshake. -/
theorem c7_witness :
    connect exConnectingState = exConnectingState ∧
    sendMessageRequest 1 "0" exConnectingState = connect exConnectingState :=
  ⟨(c7_single_transport exConnectingState).1 (by decide),
   ((c7_single_transport exConnectingState).2 1 "0" (by decide)).1⟩

/-- Claim C8: an Acknowledge or Result frame whose id is not in the pending
registry only appends a report; the registry, every pending entry and the
resolution trace are unchanged, and no resolver is invoked. -/
theorem c8_unknown_id_reported (id : String) (s : ClientState)
    (hk : mapGet id s.pending = none) :
    onMessage (ServerMessage.acknowledge id) s =
      { s with reports := s.reports ++ [Report.ackUnknown id] } ∧
    (∀ r, onMessage (ServerMessage.resultSuccess id r) s =
      { s with reports := s.reports ++ [Report.resultUnknown id] }) ∧
    ∀ e, onMessage (ServerMessage.resultError id e) s =
      { s with reports := s.reports ++ [Report.resultUnknown id] } := by
  refine ⟨?_, fun r => ?_, fun e => ?_⟩ <;> simp only [onMessage] <;> rw [hk]

/-- Witness for claim C8: a result frame for an unknown id against the
freshly constructed client only appends a report. -/
theorem c8_witness :
    onMessage (ServerMessage.resultSuccess "9" 5) (initState (fun n => n)) =
      { initState (fun n => n) with
          reports := (initState (fun n => n)).reports ++ [Report.resultUnknown "9"] } :=
  ((c8_unknown_id_reported "9" (initState (fun n => n)) rfl).2.1) 5

/-- Claim C9: in the logging facade, when the awaited page id is null,
storing log lines is a local no-op: the wrapped client state is untouched
(so sendMessage is never called and no network error is produced) and every
queued line is still processed in order, each producing one local report. -/
theorem c9_null_pageid_noop (now : Nat) (lines : List (LineType × Nat))
    (st : LoggerNetworkState) :
    (storeAll now none lines st).client = st.client ∧
    (storeAll now none lines st).sendMessageCalls = st.sendMessageCalls ∧
    (storeAll now none lines st).localLog =
      st.localLog ++ lines.map (fun _ => noPageIdMessage) := by
  induction lines generalizing st with
  | nil =>
    refine ⟨rfl, rfl, ?_⟩
    simp [storeAll]
  | cons l rest ih =>
    have h := ih (store now none l.1 l.2 st)
    have hfold : storeAll now none (l :: rest) st =
        storeAll now none rest (store now none l.1 l.2 st) := rfl
    rw [hfold]
    refine ⟨?_, ?_, ?_⟩
    · rw [h.1]
      rfl
    · rw [h.2.1]
      rfl
    · rw [h.2.2]
      show (st.localLog ++ [noPageIdMessage]) ++
          rest.map (fun _ => noPageIdMessage) =
        st.localLog ++ (l :: rest).map (fun _ => noPageIdMessage)
      rw [List.append_assoc]
      rfl

/-- Claim C10: a ResultSuccess or ResultError frame whose id matches a
pending entry always removes the entry and invokes its resolver with the
corresponding outcome, for every entry state: acknowledgment is not
required, nor that the entry was ever sent. -/
theorem c10_result_always_resolves (id : String) (s : ClientState) (p : IPending)
    (hk : mapGet id s.pending = some p) :
    (∀ r, onMessage (ServerMessage.resultSuccess id r) s =
      { s with pending := eraseKey id s.pending
               resolutions := s.resolutions ++
                 [{ resolverId := p.resolverId, requestId := id
                    outcome := Outcome.success r }] }) ∧
    ∀ e, onMessage (ServerMessage.resultError id e) s =
      { s with pending := eraseKey id s.pending
               resolutions := s.resolutions ++
                 [{ resolverId := p.resolverId, requestId := id
                    outcome := Outcome.error e }] } := by
  refine ⟨fun r => ?_, fun e => ?_⟩ <;> simp only [onMessage] <;> rw [hk]

/-- Witness for claim C10 at an entry that was never sent (sent is none)
and never acknowledged. -/
theorem c10_witness :
    exPendingUnsent.sent = none ∧ exPendingUnsent.acknowledged = false ∧
    onMessage (ServerMessage.resultSuccess "0" 99) exConnectingState =
      { exConnectingState with
          pending := eraseKey "0" exConnectingState.pending
          resolutions := exConnectingState.resolutions ++
            [{ resolverId := 0, requestId := "0", outcome := Outcome.success 99 }] } :=
  ⟨rfl, rfl,
    (c10_result_always_resolves "0" exConnectingState exPendingUnsent (by decide)).1 99⟩

end JscriptLoggerClient
